import Mathlib

/-!
Shallow embedding of `r.in.usgs.py` (GSoC2017-GRASS-GIS): the catalog
classification pass, download loop, archive extraction, import loop, mosaic
assembly, and the process-wide cleanup list, together with theorems checking
the natural-language specification against this code.
-/

namespace RInUsgs

/-- A catalog entry parsed from the TNM API JSON response: `title`,
`downloadURL`, `sizeInBytes`, and the first element of `datasets`
(the code reads `f['datasets'][0]`, lines 330-332). -/
structure Entry where
  title : String
  downloadURL : String
  sizeInBytes : Nat
  datasets0 : String
deriving Repr, DecidableEq

/-- The per-product constants drawn from `usgs_product_dict` (lines 147-219)
and the subset option: `work_dir`, `product_is_zip`, `product_url_split`,
`product_extension`, `product_interpolation`, and `gui_subset`
(`none` models the falsy `None`/empty subset of ned/naip/ustopo). -/
structure Params where
  work_dir : String
  product_is_zip : Bool
  product_url_split : String
  product_extension : String
  product_interpolation : String
  gui_subset : Option String
deriving Repr, DecidableEq

/-- Whether the first character list begins the second. -/
def charsHavePre : List Char → List Char → Bool
  | [], _ => true
  | _ :: _, [] => false
  | c :: cs, d :: ds => c == d && charsHavePre cs ds

/-- Substring search over character lists. -/
def charsContain (needle : List Char) : List Char → Bool
  | [] => charsHavePre needle []
  | d :: ds => charsHavePre needle (d :: ds) || charsContain needle ds

/-- Python's `needle in hay` substring test on strings (line 382 etc.). -/
def strContains (hay needle : String) : Bool :=
  charsContain needle.toList hay.toList

/-- Python's `s.endswith(ext)` (line 547). -/
def strEndsWith (s ext : String) : Bool :=
  charsHavePre ext.toList.reverse s.toList.reverse

/-- The suffix of the character list after the last occurrence of `sep`, or
`none` when `sep` does not occur.  An occurrence found deeper in the list
(starting later) wins over one at the head. -/
def after_last_sep (sep : List Char) : List Char → Option (List Char)
  | [] => none
  | c :: cs =>
    match after_last_sep sep cs with
    | some t => some t
    | none =>
      if charsHavePre sep (c :: cs) then some (List.drop sep.length (c :: cs)) else none

/-- Line 363: `TNM_file_name = TNM_file_URL.split(product_url_split)[-1]` —
the part of the url after the last separator occurrence (the whole url when
the separator is absent).  For separators that cannot overlap themselves,
which `/` and `&FNAME=` cannot, this matches Python's left-to-right split. -/
def TNM_file_name (p : Params) (url : String) : String :=
  match after_last_sep p.product_url_split.toList url.toList with
  | some t => ⟨t⟩
  | none => url

/-- Lines 364-366: `os.path.join(work_dir, TNM_file_name)`; the same path is
bound to `local_file_path`, `local_zip_path` and `local_tile_path`. -/
def local_file_path (p : Params) (url : String) : String :=
  p.work_dir ++ "/" ++ TNM_file_name p url

/-- Line 346: `size_diff_tolerance = 5`. -/
def size_diff_tolerance : Nat := 5

/-- The accumulator lists of the classification pass (lines 345-357), plus the
process-wide `cleanup_list` (line 141) as mutated during that pass. -/
structure ClassifyState where
  tiles_needed_count : Nat
  dwnld_size : List Nat
  dwnld_url : List String
  dataset_name : List String
  TNM_file_titles : List String
  exist_dwnld_url : List String
  exist_TNM_titles : List String
  exist_zip_list : List String
  exist_tile_list : List String
  extract_zip_list : List String
  cleanup_list : List String
  exist_dwnld_size : Nat
deriving Repr, DecidableEq

/-- The state at the head of `main`'s classification (lines 345-357):
empty lists and zero counters. -/
def initClassifyState : ClassifyState :=
  ⟨0, [], [], [], [], [], [], [], [], [], [], 0⟩

/-- Lines 324-332: the `down_list()` closure, written per field: the url,
size and title lists always grow; the zip path joins `extract_zip_list` for
zip products; `dataset_name` gains `f['datasets'][0]` when it is new and the
list still has at most one element. -/
def down_list (p : Params) (f : Entry) (st : ClassifyState) : ClassifyState :=
  { st with
    dwnld_url := st.dwnld_url ++ [f.downloadURL]
    dwnld_size := st.dwnld_size ++ [f.sizeInBytes]
    TNM_file_titles := st.TNM_file_titles ++ [f.title]
    extract_zip_list :=
      if p.product_is_zip then st.extract_zip_list ++ [local_file_path p f.downloadURL]
      else st.extract_zip_list
    dataset_name :=
      if f.datasets0 ∈ st.dataset_name then st.dataset_name
      else if st.dataset_name.length ≤ 1 then st.dataset_name ++ [f.datasets0]
      else st.dataset_name }

/-- Lines 334-341: the `exist_list()` closure, written per field: titles and
urls always grow; for zip products the local path joins `exist_zip_list` and
`extract_zip_list`, otherwise it joins `exist_tile_list`. -/
def exist_list (p : Params) (f : Entry) (st : ClassifyState) : ClassifyState :=
  { st with
    exist_TNM_titles := st.exist_TNM_titles ++ [f.title]
    exist_dwnld_url := st.exist_dwnld_url ++ [f.downloadURL]
    exist_zip_list :=
      if p.product_is_zip then st.exist_zip_list ++ [local_file_path p f.downloadURL]
      else st.exist_zip_list
    extract_zip_list :=
      if p.product_is_zip then st.extract_zip_list ++ [local_file_path p f.downloadURL]
      else st.extract_zip_list
    exist_tile_list :=
      if p.product_is_zip then st.exist_tile_list
      else st.exist_tile_list ++ [local_file_path p f.downloadURL] }

/-- The subset test of lines 378/382, 388/393, 400/404: the branch on a falsy
`gui_subset` and otherwise `gui_subset in TNM_file_title`. -/
def passes_subset (p : Params) (title : String) : Bool :=
  match p.gui_subset with
  | none => true
  | some s => strContains title s

/-- Lines 359-407: the body of `for f in return_JSON['items']`.  `fs` gives the
size of an existing local file (`os.path.exists` / `os.path.getsize`);
`Nat.dist` is `abs(existing_local_file_size - TNM_file_size)` on the
nonnegative sizes.  A stale local file is appended to `cleanup_list` (line 375)
before the subset test runs. -/
def classify_step (p : Params) (fs : String → Option Nat) (st : ClassifyState)
    (f : Entry) : ClassifyState :=
  let path := local_file_path p f.downloadURL
  match fs path with
  | some existing_local_file_size =>
    if size_diff_tolerance < Nat.dist existing_local_file_size f.sizeInBytes then
      let st := { st with cleanup_list := st.cleanup_list ++ [path] }
      if passes_subset p f.title then
        down_list p f { st with tiles_needed_count := st.tiles_needed_count + 1 }
      else st
    else
      if passes_subset p f.title then
        let st := exist_list p f { st with tiles_needed_count := st.tiles_needed_count + 1 }
        { st with exist_dwnld_size := st.exist_dwnld_size + f.sizeInBytes }
      else st
  | none =>
    if passes_subset p f.title then
      down_list p f { st with tiles_needed_count := st.tiles_needed_count + 1 }
    else st

/-- The whole classification pass over `return_JSON['items']`. -/
def classify (p : Params) (fs : String → Option Nat) (items : List Entry) : ClassifyState :=
  items.foldl (classify_step p fs) initClassifyState

/-- Line 414: `file_download_count = len(dwnld_url)`, taken before the
removal loops of lines 417-422. -/
def file_download_count (st : ClassifyState) : Nat :=
  st.dwnld_url.length

/-- Lines 417-422: each title/url of the exist lists is removed from
`TNM_file_titles` / `dwnld_url` when present (`list.remove` drops the first
occurrence; `List.erase` is a no-op when absent, like the `in` guard). -/
def remove_existing (st : ClassifyState) : ClassifyState :=
  { st with
    TNM_file_titles := st.exist_TNM_titles.foldl (fun l t => l.erase t) st.TNM_file_titles
    dwnld_url := st.exist_dwnld_url.foldl (fun l u => l.erase u) st.dwnld_url }

/-- The local paths of entries whose local copy exists and differs from the
catalog size by more than the tolerance: the stale set of the spec, stated
directly from the stale condition of lines 370-375. -/
def stale_paths (p : Params) (fs : String → Option Nat) (items : List Entry) : List String :=
  items.filterMap fun f =>
    let path := local_file_path p f.downloadURL
    match fs path with
    | some sz => if size_diff_tolerance < Nat.dist sz f.sizeInBytes then some path else none
    | none => none

/-- Fuel-driven decimal digit counter: one digit for `n < 10`, else one more
than the count of `n / 10`.  The fuel (at least `n`) only forces structural
termination. -/
def dec_len_go (fuel n : Nat) : Nat :=
  match fuel with
  | 0 => 1
  | fuel + 1 => if n < 10 then 1 else dec_len_go fuel (n / 10) + 1

/-- Python's `len(str(n))` on a nonnegative integer: its decimal digit count
(1 for `n = 0`, matching `len("0")`). -/
def dec_len (n : Nat) : Nat :=
  dec_len_go n n

/-- `two_dec_str c` renders `c` hundredths as a two-decimal number.  Python
formats `total*1e-6` (resp. `1e-9`) with binary floats; no claim inspects the
digits, only whether the branch assigns, so a truncating decimal rendering
stands in for the float text. -/
def two_dec_str (centi : Nat) : String :=
  toString (centi / 100) ++ "." ++ (if centi % 100 < 10 then "0" else "") ++
    toString (centi % 100)

/-- Lines 436-446: `total_size_str` is assigned only in the two digit-length
branches when `dwnld_size` is non-empty; `none` models the name staying
unbound.  The two `if`s of the source have disjoint conditions, so the
`else if` chain is equivalent. -/
def total_size_str (dwnld_size : List Nat) : Option String :=
  if dwnld_size.isEmpty then some "0"
  else
    let total_size := dwnld_size.sum
    let len_total_size := dec_len total_size
    if 6 < len_total_size ∧ len_total_size < 10 then
      some (two_dec_str (total_size / 10000) ++ " MB")
    else if 10 ≤ len_total_size then
      some (two_dec_str (total_size / 10000000) ++ " GB")
    else none

/-- Lines 449-452: the tile-title block, `'none'` when all tiles are local. -/
def TNM_file_titles_info (titles : List String) : String :=
  if titles.isEmpty then "none" else String.intercalate "\n" titles

/-- Lines 455-471: the pre-download report.  When `file_download_count > 0`
the format string reads `total_size_str` (line 467), so an unassigned
`total_size_str` raises `NameError`; `none` models that crash. -/
def data_info (fdc : Nat) (titles : List String) (sizes : List Nat) : Option String :=
  if fdc ≤ 0 then some "\n\nUSGS file(s) to download: NONE"
  else
    (total_size_str sizes).map fun sz =>
      "USGS file(s) to download:\n-------------------------\nTotal download size:\t" ++
        sz ++ "\nTile count:\t" ++ toString fdc ++ "\nUSGS tile titles:\n" ++
        TNM_file_titles_info titles ++ "\n-------------------------"

/-- Outcome of one `urllib2.urlopen`-and-write of the download loop:
`success` (all chunks written), `urlError` (`urllib2.URLError`, line 520), or
`writeError` (any other `StandardError` while writing, line 522, leaving a
partial file on disk). -/
inductive NetResult where
  | success
  | urlError
  | writeError
deriving Repr, DecidableEq

/-- State of the download loop (lines 483-487): the counter, the tile/zip
path lists, the urls passed to `urlopen` (`attempted`), the paths whose file
was created on disk by `open` (`written`, also on the partial-write path),
and the cleanup list. -/
structure DownloadState where
  download_count : Nat
  attempted : List String
  written : List String
  local_tile_path_list : List String
  local_zip_path_list : List String
  cleanup_list : List String
deriving Repr, DecidableEq

/-- A loop that either runs to completion or stops in `gscript.fatal`. -/
inductive LoopResult (σ : Type) where
  | ok (st : σ)
  | fatal (msg : String) (st : σ)
deriving Repr, DecidableEq

/-- The state carried by a `LoopResult`, however the loop ended. -/
def LoopResult.state : LoopResult σ → σ
  | .ok st => st
  | .fatal _ st => st

/-- Lines 490-527: `for url in dwnld_url`.  On `urlError` the run dies fatally
at once; on `writeError` the partial file joins `cleanup_list` and — only when
`download_count` is non-zero — the numbered fatal message is issued, otherwise
the loop silently proceeds to the next url (`if download_count:` line 524). -/
def download_files (p : Params) (net : String → NetResult) (TNM_count : Nat) :
    DownloadState → List String → LoopResult DownloadState
  | st, [] => .ok st
  | st, url :: rest =>
    let path := local_file_path p url
    let st := { st with attempted := st.attempted ++ [url] }
    match net url with
    | .success =>
      let st :=
        { st with
          download_count := st.download_count + 1
          written := st.written ++ [path] }
      let st :=
        if p.product_is_zip then
          { st with local_zip_path_list := st.local_zip_path_list ++ [path] }
        else
          { st with local_tile_path_list := st.local_tile_path_list ++ [path] }
      download_files p net TNM_count st rest
    | .urlError =>
      .fatal "USGS download request has timed out. Network or formatting error." st
    | .writeError =>
      let st :=
        { st with
          written := st.written ++ [path]
          cleanup_list := st.cleanup_list ++ [path] }
      if st.download_count ≠ 0 then
        .fatal ("Download " ++ toString st.download_count ++ " of " ++
          toString TNM_count ++ ": FAILED") st
      else
        download_files p net TNM_count st rest

/-- State of the extraction loop (lines 542-559): the on-disk predicate, the
`extracted_tile` variable — a Python local that persists across archives and
starts unbound (`none`) — the tile list, and the cleanup list. -/
structure ExtractState where
  fs : String → Bool
  extracted_tile : Option String
  local_tile_path_list : List String
  cleanup_list : List String

/-- How one archive's processing ends: normally, in the fatal of line 559, or
in an unhandled `NameError` — the bare `except` catches the `NameError` from
`extracted_tile` being unbound, then line 558 re-raises it by reading the same
unbound name, so no path is registered and no `gscript.fatal` runs. -/
inductive ExtractResult where
  | ok (st : ExtractState)
  | fatalMsg (st : ExtractState)
  | nameError (st : ExtractState)

/-- The state carried by an `ExtractResult`. -/
def ExtractResult.state : ExtractResult → ExtractState
  | .ok st => st
  | .fatalMsg st => st
  | .nameError st => st

/-- Lines 546-553: `for f in read_zip.namelist()`.  Every member ending with
the product extension is extracted (there is no `break`): `extracted_tile` is
assigned its destination path, a pre-existing file there is removed and the
member re-extracted, otherwise it is extracted fresh — either way the path is
on disk afterwards. -/
def extract_members (p : Params) (st : ExtractState) : List String → ExtractState
  | [] => st
  | f :: rest =>
    if strEndsWith f p.product_extension then
      let tile := p.work_dir ++ "/" ++ f
      extract_members p
        { st with
          fs := fun x => x == tile || st.fs x
          extracted_tile := some tile }
        rest
    else extract_members p st rest

/-- Lines 544-559: one archive.  `zipOpen` yields the member list or `none`
when `zipfile.ZipFile` raises.  After the member loop, line 554 reads
`extracted_tile`: unbound means `NameError` (caught, re-raised at 558); bound
and on disk means the tile — possibly one left over from an earlier archive —
is appended to the tile list and `cleanup_list`.  On an open failure,
line 558 appends the previously bound `extracted_tile` (or re-raises
`NameError` when unbound) before the fatal of line 559. -/
def extract_archive (p : Params) (zipOpen : String → Option (List String))
    (st : ExtractState) (z : String) : ExtractResult :=
  match zipOpen z with
  | some members =>
    let st := extract_members p st members
    match st.extracted_tile with
    | none => .nameError st
    | some tile =>
      if st.fs tile then
        .ok
          { st with
            local_tile_path_list := st.local_tile_path_list ++ [tile]
            cleanup_list := st.cleanup_list ++ [tile] }
      else .ok st
  | none =>
    match st.extracted_tile with
    | none => .nameError st
    | some tile => .fatalMsg { st with cleanup_list := st.cleanup_list ++ [tile] }

/-- Line 542: `for z in local_zip_path_list`, stopping at the first fatal or
unhandled `NameError`. -/
def extract_zips (p : Params) (zipOpen : String → Option (List String)) :
    ExtractState → List String → ExtractResult
  | st, [] => .ok st
  | st, z :: rest =>
    match extract_archive p zipOpen st z with
    | .ok st => extract_zips p zipOpen st rest
    | r => r

/-- Lines 564-565: `os.path.basename` then `os.path.splitext(...)[0]` — the
part after the last slash, then everything before its last dot (the
leading-dot corner of `splitext` does not arise for the tile names at
hand). -/
def LT_layer_name (t : String) : String :=
  let base := (t.toList.reverse.takeWhile (fun c => c ≠ '/')).reverse
  match base.reverse.dropWhile (fun c => c ≠ '.') with
  | [] => ⟨base⟩
  | _ :: rest => ⟨rest.reverse⟩

/-- The arguments of the `r.import` invocation, lines 571-573.  The
`resample` argument is `product_interpolation` — the product's built-in
method — not the user's `gui_resampling_method`. -/
structure RImportCall where
  input : String
  output : String
  resample : String
deriving Repr, DecidableEq

/-- Lines 570-573: how the import call for tile `t` is built. -/
def r_import_call (p : Params) (t : String) : RImportCall :=
  ⟨t, LT_layer_name t, p.product_interpolation⟩

/-- Lines 274-277: when the user selected `default`, `gui_resampling_method`
is reassigned to the product's interpolation; otherwise it keeps the user's
choice.  (The resulting value is never read again in the file.) -/
def gui_resampling_method_after_default (gui : String) (p : Params) : String :=
  if gui = "default" then p.product_interpolation else gui

/-- State of the import loop (lines 562-578). -/
structure ImportState where
  patch_names : List String
  cleanup_list : List String
deriving Repr, DecidableEq

/-- Lines 562-578: `for t in local_tile_path_list`.  The layer name is
appended to `patch_names` before the `r.import` attempt; on success the tile
file joins `cleanup_list` unless the `k` flag is set; a `CalledModuleError`
is fatal. -/
def import_tiles (importOk : String → Bool) (gui_k_flag : Bool) :
    ImportState → List String → LoopResult ImportState
  | st, [] => .ok st
  | st, t :: rest =>
    if importOk t then
      import_tiles importOk gui_k_flag
        ⟨st.patch_names ++ [LT_layer_name t],
          if gui_k_flag then st.cleanup_list else st.cleanup_list ++ [t]⟩ rest
    else
      .fatal ("Unable to import " ++ LT_layer_name t)
        ⟨st.patch_names ++ [LT_layer_name t], st.cleanup_list⟩

/-- How the assembly stage (lines 583-609) ends: a patched composite, a
renamed lone layer, the fall-through with equal-but-zero counts that creates
no layer at all, a failed `r.patch`, or the count-mismatch fatal. -/
inductive AssemblyOutcome where
  | patched (output : String)
  | renamed (output : String)
  | no_output
  | fatalPatch
  | fatalMismatch
deriving Repr, DecidableEq

/-- Lines 583-609: equal counts route `> 1` tiles through `r.patch` (fatal on
`CalledModuleError`) and exactly one through `g.rename`; equal-and-zero counts
fall through both branches; unequal counts are fatal. -/
def assemble (patchOk : Bool) (gui_output_layer : String)
    (completed_tiles_count tiles_needed_count : Nat) : AssemblyOutcome :=
  if completed_tiles_count = tiles_needed_count then
    if 1 < completed_tiles_count then
      if patchOk then .patched gui_output_layer else .fatalPatch
    else if completed_tiles_count = 1 then .renamed gui_output_layer
    else .no_output
  else .fatalMismatch

/-- GUI flags and options read in `main` (lines 254-259) that the pipeline
branches on. -/
structure Gui where
  gui_i_flag : Bool
  gui_k_flag : Bool
  gui_output_layer : String
deriving Repr, DecidableEq

/-- The external world: local file sizes at classification time, the network,
`zipfile` contents (`none` = unreadable), `r.import` success per tile, and
`r.patch` success. -/
structure World where
  fs_size : String → Option Nat
  net : String → NetResult
  zipOpen : String → Option (List String)
  importOk : String → Bool
  patchOk : Bool

/-- How a whole run of `main` terminates. -/
inductive RunOutcome where
  | fatalEmpty
  | fatalStale (count : Nat)
  | nameErrorSize
  | infoExit
  | fatalDownload (msg : String)
  | extractNameError
  | fatalExtract
  | fatalImport (msg : String)
  | fatalPatchTiles
  | fatalCountMismatch
  | success (output : Option String)
deriving Repr, DecidableEq

/-- The observable result of a run: the outcome, the final `cleanup_list`,
the urls handed to `urlopen`, the produced output layer (if any), and the
`tiles_needed_count` of the classification (0 when classification never
ran). -/
structure RunResult where
  outcome : RunOutcome
  cleanup_list : List String
  downloads_attempted : List String
  output_layer : Option String
  tiles_needed : Nat
deriving Repr, DecidableEq

/-- Lines 562-609: the import loop followed by the assembly stage, with the
attempted urls and the needed count threaded through for the final record. -/
def run_assembly (w : World) (g : Gui) (attempted : List String) (tiles_needed : Nat)
    (est : ExtractState) : RunResult :=
  match import_tiles w.importOk g.gui_k_flag ⟨[], est.cleanup_list⟩
      est.local_tile_path_list with
  | .fatal msg ist => ⟨.fatalImport msg, ist.cleanup_list, attempted, none, tiles_needed⟩
  | .ok ist =>
    match assemble w.patchOk g.gui_output_layer
        est.local_tile_path_list.length tiles_needed with
    | .patched out => ⟨.success (some out), ist.cleanup_list, attempted, some out, tiles_needed⟩
    | .renamed out => ⟨.success (some out), ist.cleanup_list, attempted, some out, tiles_needed⟩
    | .no_output => ⟨.success none, ist.cleanup_list, attempted, none, tiles_needed⟩
    | .fatalPatch => ⟨.fatalPatchTiles, ist.cleanup_list, attempted, none, tiles_needed⟩
    | .fatalMismatch => ⟨.fatalCountMismatch, ist.cleanup_list, attempted, none, tiles_needed⟩

/-- Lines 530-559 then 562-609: after a completed download loop, the exist
lists join the zip/tile path lists, zip products go through extraction, and
the run continues with import and assembly.  The on-disk predicate holds for
files that existed at classification time and for every file the download
loop created (complete or partial). -/
def run_post_download (p : Params) (g : Gui) (w : World) (st : ClassifyState)
    (dst : DownloadState) : RunResult :=
  if p.product_is_zip then
    match extract_zips p w.zipOpen
        ⟨fun x => (w.fs_size x).isSome || dst.written.contains x, none,
          dst.local_tile_path_list ++ st.exist_tile_list, dst.cleanup_list⟩
        (dst.local_zip_path_list ++ st.exist_zip_list) with
    | .nameError est =>
      ⟨.extractNameError, est.cleanup_list, dst.attempted, none, st.tiles_needed_count⟩
    | .fatalMsg est =>
      ⟨.fatalExtract, est.cleanup_list, dst.attempted, none, st.tiles_needed_count⟩
    | .ok est => run_assembly w g dst.attempted st.tiles_needed_count est
  else
    run_assembly w g dst.attempted st.tiles_needed_count
      ⟨fun x => (w.fs_size x).isSome || dst.written.contains x, none,
        dst.local_tile_path_list ++ st.exist_tile_list, dst.cleanup_list⟩

/-- The whole of `main` after the TNM query (lines 344-618), sequenced exactly
as in the source: the zero-total fatal (line 411), classification, the
removal loops, the stale-cleanup fatal (line 431) before anything is
downloaded, the report whose formatting can crash on an unbound
`total_size_str` (line 467), the `-i` exit (line 475), the download loop, and
`run_post_download`.  `total` is `return_JSON['total']`. -/
def run (p : Params) (g : Gui) (w : World) (total : Nat) (items : List Entry) : RunResult :=
  if total = 0 then ⟨.fatalEmpty, [], [], none, 0⟩
  else
    if (remove_existing (classify p w.fs_size items)).cleanup_list.isEmpty then
      match data_info (file_download_count (classify p w.fs_size items))
          (remove_existing (classify p w.fs_size items)).TNM_file_titles
          (remove_existing (classify p w.fs_size items)).dwnld_size with
      | none =>
        ⟨.nameErrorSize, (remove_existing (classify p w.fs_size items)).cleanup_list, [],
          none, (remove_existing (classify p w.fs_size items)).tiles_needed_count⟩
      | some _ =>
        if g.gui_i_flag then
          ⟨.infoExit, (remove_existing (classify p w.fs_size items)).cleanup_list, [],
            none, (remove_existing (classify p w.fs_size items)).tiles_needed_count⟩
        else
          match download_files p w.net
              (remove_existing (classify p w.fs_size items)).dwnld_url.length
              ⟨0, [], [], [], [], (remove_existing (classify p w.fs_size items)).cleanup_list⟩
              (remove_existing (classify p w.fs_size items)).dwnld_url with
          | .fatal msg dst =>
            ⟨.fatalDownload msg, dst.cleanup_list, dst.attempted, none,
              (remove_existing (classify p w.fs_size items)).tiles_needed_count⟩
          | .ok dst => run_post_download p g w (remove_existing (classify p w.fs_size items)) dst
    else
      ⟨.fatalStale (remove_existing (classify p w.fs_size items)).cleanup_list.length,
        (remove_existing (classify p w.fs_size items)).cleanup_list, [], none,
        (remove_existing (classify p w.fs_size items)).tiles_needed_count⟩

/-- Lines 620-628: `cleanup()` runs once via `atexit` on every outcome; each
registered path that still exists is removed (`gscript.try_remove`).  Given
the existence predicate at exit, this is the predicate afterwards. -/
def drain (cleanup_list : List String) (on_disk : String → Bool) : String → Bool :=
  fun f => on_disk f && !(cleanup_list.contains f)

/-- The second list is the first with entries appended at the end: how the
cleanup list evolves through the run (appended, never removed). -/
def growsTo (a b : List String) : Prop :=
  ∃ s, b = a ++ s

/-- The destination path of the last member of `ms` ending with the product
extension, or `none` when no member matches: what `extracted_tile` holds
after the member loop of lines 546-553 when it started unbound. -/
def last_match (p : Params) : List String → Option String
  | [] => none
  | f :: rest =>
    match last_match p rest with
    | some t => some t
    | none =>
      if strEndsWith f p.product_extension then some (p.work_dir ++ "/" ++ f) else none

/-! Concrete fixtures used by the counterexamples and witnesses: parameters of
the ned product (`zip`, url split `/`, extension `img`, interpolation
`bilinear`, no subset) and of the nlcd product (`zip`, url split `&FNAME=`,
extension `tif`, interpolation `nearest`, subset `Land Cover`), together with
small catalog entries, local-file states and external worlds. -/

/-- The ned product's parameters with working directory `/w`. -/
def p_ned : Params := ⟨"/w", true, "/", "img", "bilinear", none⟩

/-- The nlcd product's parameters with subset `Land Cover`. -/
def p_nlcd : Params := ⟨"/w", true, "&FNAME=", "tif", "nearest", some "Land Cover"⟩

/-- An entry whose local copy will be 100 bytes off: stale. -/
def entry_stale : Entry := ⟨"TitleA", "http://h/a.img", 100, "DS"⟩

/-- Local state for `entry_stale`: the file exists with size 200. -/
def fs_stale : String → Option Nat :=
  fun s => if s = "/w/a.img" then some 200 else none

/-- An nlcd entry whose title fails the `Land Cover` subset filter and whose
local copy is 100 bytes off. -/
def entry_filtered_stale : Entry := ⟨"Percent Tree Canopy X", "http://h/q?x&FNAME=b.tif", 100, "DS"⟩

/-- Local state for `entry_filtered_stale`: the file exists with size 200. -/
def fs_filtered_stale : String → Option Nat :=
  fun s => if s = "/w/b.tif" then some 200 else none

/-- An nlcd entry whose title fails the subset filter and whose local copy is
within tolerance (3 bytes off). -/
def entry_filtered_ok : Entry := ⟨"Percent Tree Canopy Y", "u&FNAME=c.tif", 100, "DS"⟩

/-- Local state for `entry_filtered_ok`: the file exists with size 103. -/
def fs_filtered_ok : String → Option Nat :=
  fun s => if s = "/w/c.tif" then some 103 else none

/-- An nlcd entry failing the subset filter with no local copy. -/
def entry_filtered_new : Entry := ⟨"Percent Tree Canopy Z", "u&FNAME=z.tif", 100, "DS"⟩

/-- A network where the first test url fails mid-write and everything else
succeeds. -/
def net_first_fails : String → NetResult :=
  fun u => if u = "http://h/d1.img" then .writeError else .success

/-- The download-loop state at line 483-487: zero count, empty lists. -/
def dl_init : DownloadState := ⟨0, [], [], [], [], []⟩

/-- GUI fixture: no `-i`, no `-k`, output layer `out`. -/
def g_plain : Gui := ⟨false, false, "out"⟩

/-- A world with no local files, a fully successful network, unreadable
archives, and succeeding imports and patches. -/
def w_empty : World :=
  ⟨fun _ => none, fun _ => .success, fun _ => none, fun _ => true, true⟩

/-- A world whose local state is `fs_stale` and everything external
succeeds. -/
def w_stale : World :=
  ⟨fs_stale, fun _ => .success, fun _ => none, fun _ => true, true⟩

/-- An archive table: `/w/a.zip` opens to two members both ending in `img`. -/
def zip_two_members : String → Option (List String) :=
  fun z => if z = "/w/a.zip" then some ["x.img", "y.img"] else none

/-- An extraction start state: nothing on disk, `extracted_tile` unbound. -/
def ex_init : ExtractState := ⟨fun _ => false, none, [], []⟩

/-- A ned entry whose local copy is within tolerance (2 bytes off). -/
def entry_reuse : Entry := ⟨"TitleR", "http://h/r.img", 100, "DS"⟩

/-- Local state for `entry_reuse`: the file exists with size 102. -/
def fs_reuse : String → Option Nat :=
  fun s => if s = "/w/r.img" then some 102 else none

/-! Theorems.  First the small structural lemmas about one classification
step, then the per-claim theorems. -/

theorem down_list_cleanup_list (p : Params) (f : Entry) (st : ClassifyState) :
    (down_list p f st).cleanup_list = st.cleanup_list := rfl

theorem exist_list_cleanup_list (p : Params) (f : Entry) (st : ClassifyState) :
    (exist_list p f st).cleanup_list = st.cleanup_list := rfl

/-- One classification step appends to `cleanup_list` exactly the stale path
of the entry, if any. -/
theorem classify_step_cleanup_list (p : Params) (fs : String → Option Nat)
    (st : ClassifyState) (f : Entry) :
    (classify_step p fs st f).cleanup_list = st.cleanup_list ++ stale_paths p fs [f] := by
  unfold classify_step stale_paths
  cases h : fs (local_file_path p f.downloadURL) with
  | none => simp [h]; split <;> rfl
  | some sz =>
    simp only [h, List.filterMap]
    split
    · split <;> simp [down_list]
    · split <;> simp [exist_list]

/-- The stale set splits over the head entry. -/
theorem stale_paths_cons (p : Params) (fs : String → Option Nat) (f : Entry)
    (rest : List Entry) :
    stale_paths p fs (f :: rest) = stale_paths p fs [f] ++ stale_paths p fs rest := by
  unfold stale_paths
  simp only [List.filterMap_cons, List.filterMap_nil]
  cases h : fs (local_file_path p f.downloadURL) <;> simp [h]
  split <;> simp

/-- Folding the classification over any starting state appends exactly the
stale paths to the cleanup list. -/
theorem classify_foldl_cleanup_list (p : Params) (fs : String → Option Nat)
    (items : List Entry) :
    ∀ st : ClassifyState, (items.foldl (classify_step p fs) st).cleanup_list =
      st.cleanup_list ++ stale_paths p fs items := by
  induction items with
  | nil => intro st; simp [stale_paths]
  | cons f rest ih =>
    intro st
    rw [List.foldl_cons, ih, classify_step_cleanup_list, List.append_assoc,
      ← stale_paths_cons p fs f rest]

/-- After classifying all entries, `cleanup_list` holds exactly the stale
paths. -/
theorem classify_cleanup_list (p : Params) (fs : String → Option Nat)
    (items : List Entry) :
    (classify p fs items).cleanup_list = stale_paths p fs items := by
  rw [classify, classify_foldl_cleanup_list]; rfl

/-- Draining removes every registered path. -/
theorem drain_mem (cl : List String) (e : String → Bool) (f : String) (h : f ∈ cl) :
    drain cl e f = false := by
  simp [drain, h]

/-- Draining leaves unregistered paths alone. -/
theorem drain_not_mem (cl : List String) (e : String → Bool) (f : String) (h : f ∉ cl) :
    drain cl e f = e f := by
  simp [drain, h]

/-- C2 is refuted on the code: an entry whose local file exists and is out of
tolerance is classified into BOTH the Download set (`dwnld_url`, via
`down_list` at line 380) and the Stale set (`cleanup_list`, line 375) — not
exactly one of the three sets. -/
theorem c2_counterexample :
    (classify p_ned fs_stale [entry_stale]).dwnld_url = ["http://h/a.img"] ∧
    (classify p_ned fs_stale [entry_stale]).cleanup_list = ["/w/a.img"] := by
  constructor <;> decide

/-- C2 amended: an entry that passes the subset filter lands in at least one
set, Reuse excludes the other two, but an out-of-tolerance entry with an
existing local file lands in both Download and Stale: with no local file the
step appends only to the download urls; with an out-of-tolerance local file it
appends to the download urls AND the cleanup list; with a within-tolerance
local file it appends only to the reuse urls. -/
theorem c2_amended (p : Params) (fs : String → Option Nat) (st : ClassifyState) (f : Entry) :
    (fs (local_file_path p f.downloadURL) = none → passes_subset p f.title = true →
      (classify_step p fs st f).dwnld_url = st.dwnld_url ++ [f.downloadURL] ∧
      (classify_step p fs st f).exist_dwnld_url = st.exist_dwnld_url ∧
      (classify_step p fs st f).cleanup_list = st.cleanup_list) ∧
    (∀ sz, fs (local_file_path p f.downloadURL) = some sz →
      size_diff_tolerance < Nat.dist sz f.sizeInBytes → passes_subset p f.title = true →
      (classify_step p fs st f).dwnld_url = st.dwnld_url ++ [f.downloadURL] ∧
      (classify_step p fs st f).exist_dwnld_url = st.exist_dwnld_url ∧
      (classify_step p fs st f).cleanup_list =
        st.cleanup_list ++ [local_file_path p f.downloadURL]) ∧
    (∀ sz, fs (local_file_path p f.downloadURL) = some sz →
      Nat.dist sz f.sizeInBytes ≤ size_diff_tolerance → passes_subset p f.title = true →
      (classify_step p fs st f).dwnld_url = st.dwnld_url ∧
      (classify_step p fs st f).exist_dwnld_url = st.exist_dwnld_url ++ [f.downloadURL] ∧
      (classify_step p fs st f).cleanup_list = st.cleanup_list) := by
  refine ⟨?_, ?_, ?_⟩
  · intro h hp
    simp [classify_step, h, hp, down_list]
  · intro sz h hd hp
    simp [classify_step, h, hd, hp, down_list]
  · intro sz h hd hp
    have hnd : ¬ size_diff_tolerance < Nat.dist sz f.sizeInBytes := Nat.not_lt.mpr hd
    simp [classify_step, h, hnd, hp, exist_list]

/-- Witness for `c2_amended`: the stale fixture entry goes to both lists. -/
theorem c2_amended_witness :
    (classify_step p_ned fs_stale initClassifyState entry_stale).dwnld_url =
      initClassifyState.dwnld_url ++ [entry_stale.downloadURL] ∧
    (classify_step p_ned fs_stale initClassifyState entry_stale).cleanup_list =
      initClassifyState.cleanup_list ++ [local_file_path p_ned entry_stale.downloadURL] := by
  have h := (c2_amended p_ned fs_stale initClassifyState entry_stale).2.1 200
    (by decide) (by decide) (by decide)
  exact ⟨h.1, h.2.2⟩

/-- C5 is refuted on the code: a filtered-out entry with an out-of-tolerance
local file IS placed in the stale set — `cleanup_list.append` at line 375 runs
before the subset test of line 378, so the path lands in the cleanup list even
though the entry counts toward nothing else. -/
theorem c5_counterexample :
    passes_subset p_nlcd entry_filtered_stale.title = false ∧
    (classify p_nlcd fs_filtered_stale [entry_filtered_stale]).tiles_needed_count = 0 ∧
    (classify p_nlcd fs_filtered_stale [entry_filtered_stale]).dwnld_url = [] ∧
    (classify p_nlcd fs_filtered_stale [entry_filtered_stale]).exist_dwnld_url = [] ∧
    (classify p_nlcd fs_filtered_stale [entry_filtered_stale]).cleanup_list = ["/w/b.tif"] := by
  refine ⟨?_, ?_, ?_, ?_, ?_⟩ <;> decide

/-- C5 amended: an entry whose title fails the subset filter is excluded from
`tiles_needed_count` and from the Download and Reuse sets, but a
size-mismatched local file for such an entry IS placed in the stale set (its
path joins `cleanup_list`, so it still triggers the stale abort and removal at
exit). -/
theorem c5_amended (p : Params) (fs : String → Option Nat) (st : ClassifyState) (f : Entry)
    (hfail : passes_subset p f.title = false) :
    (classify_step p fs st f).tiles_needed_count = st.tiles_needed_count ∧
    (classify_step p fs st f).dwnld_url = st.dwnld_url ∧
    (classify_step p fs st f).exist_dwnld_url = st.exist_dwnld_url ∧
    (classify_step p fs st f).exist_zip_list = st.exist_zip_list ∧
    (classify_step p fs st f).exist_tile_list = st.exist_tile_list ∧
    (classify_step p fs st f).cleanup_list = st.cleanup_list ++ stale_paths p fs [f] := by
  unfold classify_step
  cases h : fs (local_file_path p f.downloadURL) with
  | none => simp [h, hfail, stale_paths]
  | some sz =>
    by_cases hd : size_diff_tolerance < Nat.dist sz f.sizeInBytes
    · simp [h, hd, hfail, stale_paths]
    · simp [h, hd, hfail, stale_paths]

/-- Witness for `c5_amended` at the filtered-out stale fixture. -/
theorem c5_amended_witness :
    (classify_step p_nlcd fs_filtered_stale initClassifyState entry_filtered_stale).dwnld_url =
      initClassifyState.dwnld_url ∧
    (classify_step p_nlcd fs_filtered_stale initClassifyState
        entry_filtered_stale).cleanup_list =
      initClassifyState.cleanup_list ++
        stale_paths p_nlcd fs_filtered_stale [entry_filtered_stale] := by
  have h := c5_amended p_nlcd fs_filtered_stale initClassifyState entry_filtered_stale
    (by decide)
  exact ⟨h.2.1, h.2.2.2.2.2⟩

/-- C6 is refuted on the code: an entry with an existing local file within
tolerance that fails the subset filter is NOT classified Reuse — it lands in
no exist list at all. -/
theorem c6_counterexample :
    fs_filtered_ok (local_file_path p_nlcd entry_filtered_ok.downloadURL) = some 103 ∧
    Nat.dist 103 entry_filtered_ok.sizeInBytes ≤ size_diff_tolerance ∧
    (classify p_nlcd fs_filtered_ok [entry_filtered_ok]).exist_dwnld_url = [] ∧
    (classify p_nlcd fs_filtered_ok [entry_filtered_ok]).exist_zip_list = [] ∧
    (classify p_nlcd fs_filtered_ok [entry_filtered_ok]).exist_tile_list = [] := by
  refine ⟨?_, ?_, ?_, ?_, ?_⟩ <;> decide

/-- C6 amended: an entry with an existing within-tolerance local file that
passes the subset filter (in particular any such entry when no filter is set)
is classified Reuse and its URL is never added to the download url list; a
within-tolerance entry failing the filter leaves the classification state
entirely unchanged (and so is also never downloaded). -/
theorem c6_amended (p : Params) (fs : String → Option Nat) (st : ClassifyState) (f : Entry)
    (sz : Nat) (hsz : fs (local_file_path p f.downloadURL) = some sz)
    (htol : Nat.dist sz f.sizeInBytes ≤ size_diff_tolerance) :
    (passes_subset p f.title = true →
      (classify_step p fs st f).exist_dwnld_url = st.exist_dwnld_url ++ [f.downloadURL] ∧
      (classify_step p fs st f).dwnld_url = st.dwnld_url ∧
      (classify_step p fs st f).cleanup_list = st.cleanup_list ∧
      (classify_step p fs st f).tiles_needed_count = st.tiles_needed_count + 1) ∧
    (passes_subset p f.title = false → classify_step p fs st f = st) := by
  have hnd : ¬ size_diff_tolerance < Nat.dist sz f.sizeInBytes := Nat.not_lt.mpr htol
  constructor
  · intro hp
    simp [classify_step, hsz, hnd, hp, exist_list]
  · intro hp
    simp [classify_step, hsz, hnd, hp]

/-- Witness for `c6_amended` at the within-tolerance reuse fixture. -/
theorem c6_amended_witness :
    (classify_step p_ned fs_reuse initClassifyState entry_reuse).exist_dwnld_url =
      initClassifyState.exist_dwnld_url ++ [entry_reuse.downloadURL] ∧
    (classify_step p_ned fs_reuse initClassifyState entry_reuse).dwnld_url =
      initClassifyState.dwnld_url := by
  have h := (c6_amended p_ned fs_reuse initClassifyState entry_reuse 102
    (by decide) (by decide)).1 (by decide)
  exact ⟨h.1, h.2.1⟩

/-- With a non-empty cleanup list after classification, the run stops in the
stale fatal of line 431: no download, no output. -/
theorem run_stale_case (p : Params) (g : Gui) (w : World) (total : Nat) (items : List Entry)
    (htotal : total ≠ 0) (h : (classify p w.fs_size items).cleanup_list ≠ []) :
    run p g w total items =
      ⟨.fatalStale (classify p w.fs_size items).cleanup_list.length,
        (classify p w.fs_size items).cleanup_list, [], none,
        (classify p w.fs_size items).tiles_needed_count⟩ := by
  have hisE : ((remove_existing (classify p w.fs_size items)).cleanup_list).isEmpty = false := by
    have hsame : (remove_existing (classify p w.fs_size items)).cleanup_list =
        (classify p w.fs_size items).cleanup_list := rfl
    rw [hsame]
    cases hl : (classify p w.fs_size items).cleanup_list with
    | nil => exact absurd hl h
    | cons a l => rfl
  unfold run
  rw [if_neg htotal]
  simp only [hisE, Bool.false_eq_true, if_false]
  rfl

/-- C1 (confirmed): when the stale set is non-empty after classifying every
entry, the run aborts with the stale fatal before any download is issued
(nothing is handed to `urlopen`), and every stale path is in the cleanup
list, hence removed by the drain at exit. -/
theorem c1_stale_short_circuit (p : Params) (g : Gui) (w : World) (total : Nat)
    (items : List Entry) (htotal : total ≠ 0)
    (hstale : stale_paths p w.fs_size items ≠ []) :
    (run p g w total items).outcome =
      .fatalStale (stale_paths p w.fs_size items).length ∧
    (run p g w total items).downloads_attempted = [] ∧
    ∀ path ∈ stale_paths p w.fs_size items,
      path ∈ (run p g w total items).cleanup_list ∧
      ∀ e, drain (run p g w total items).cleanup_list e path = false := by
  have hcl := classify_cleanup_list p w.fs_size items
  have hne : (classify p w.fs_size items).cleanup_list ≠ [] := by
    rw [hcl]; exact hstale
  rw [run_stale_case p g w total items htotal hne]
  refine ⟨by simp only [hcl], rfl, ?_⟩
  intro path hp
  have hmem : path ∈ (classify p w.fs_size items).cleanup_list := by
    rw [hcl]; exact hp
  exact ⟨hmem, fun e => drain_mem _ e path hmem⟩

/-- Witness for `c1_stale_short_circuit` at the stale fixture run. -/
theorem c1_witness :
    (run p_ned g_plain w_stale 1 [entry_stale]).outcome =
      .fatalStale (stale_paths p_ned w_stale.fs_size [entry_stale]).length ∧
    (run p_ned g_plain w_stale 1 [entry_stale]).downloads_attempted = [] ∧
    "/w/a.img" ∈ (run p_ned g_plain w_stale 1 [entry_stale]).cleanup_list ∧
    drain (run p_ned g_plain w_stale 1 [entry_stale]).cleanup_list (fun _ => true)
      "/w/a.img" = false := by
  have h := c1_stale_short_circuit p_ned g_plain w_stale 1 [entry_stale]
    (by decide) (by decide)
  have hm : "/w/a.img" ∈ stale_paths p_ned w_stale.fs_size [entry_stale] := by decide
  exact ⟨h.1, h.2.1, (h.2.2 _ hm).1, (h.2.2 _ hm).2 _⟩

/-- C3 (code bug): the import call's `resample` argument is always the
product's built-in interpolation — line 573 passes `product_interpolation` —
even though lines 274-277 resolve the user's `resampling_method` into
`gui_resampling_method`, a value the file never reads again.  With product
ned (built-in `bilinear`) and user choice `nearest`, the resolved user method
is `nearest` but the import is invoked with `bilinear`. -/
theorem c3_resample_ignored :
    (∀ (p : Params) (t : String), (r_import_call p t).resample = p.product_interpolation) ∧
    gui_resampling_method_after_default "nearest" p_ned = "nearest" ∧
    (r_import_call p_ned "/w/t.img").resample = "bilinear" ∧
    gui_resampling_method_after_default "nearest" p_ned ≠
      (r_import_call p_ned "/w/t.img").resample := by
  refine ⟨fun p t => rfl, by decide, by decide, by decide⟩

theorem growsTo_refl (a : List String) : growsTo a a :=
  ⟨[], by simp⟩

theorem growsTo_trans {a b c : List String} (h1 : growsTo a b) (h2 : growsTo b c) :
    growsTo a c := by
  obtain ⟨s, rfl⟩ := h1
  obtain ⟨t, rfl⟩ := h2
  exact ⟨s ++ t, List.append_assoc a s t⟩

/-- The download loop only appends to the cleanup list. -/
theorem download_files_cleanup_grows (p : Params) (net : String → NetResult) (n : Nat) :
    ∀ (urls : List String) (st : DownloadState),
      growsTo st.cleanup_list (download_files p net n st urls).state.cleanup_list := by
  intro urls
  induction urls with
  | nil => intro st; exact growsTo_refl _
  | cons u rest ih =>
    intro st
    unfold download_files
    cases h : net u with
    | success =>
      simp only [h]
      split
      · exact ih _
      · exact ih _
    | urlError =>
      simp only [h]
      exact growsTo_refl _
    | writeError =>
      simp only [h]
      split
      · exact ⟨[local_file_path p u], rfl⟩
      · exact growsTo_trans ⟨[local_file_path p u], rfl⟩ (ih _)

/-- C4 is refuted on the code: the very first download failing with a
non-network write error does NOT abort the run — `if download_count:` at
line 524 is false, so the loop registers the partial file and silently moves
on to the next url, finishing with `.ok`. -/
theorem c4_counterexample :
    net_first_fails "http://h/d1.img" = .writeError ∧
    download_files p_ned net_first_fails 2 dl_init
        ["http://h/d1.img", "http://h/d2.img"] =
      .ok ⟨1, ["http://h/d1.img", "http://h/d2.img"],
        ["/w/d1.img", "/w/d2.img"], [], ["/w/d2.img"], ["/w/d1.img"]⟩ := by
  exact ⟨rfl, by decide⟩

/-- The download loop never drops cleanup entries: membership persists. -/
theorem download_files_cleanup_mem (p : Params) (net : String → NetResult) (n : Nat)
    (urls : List String) (st : DownloadState) (x : String) (hx : x ∈ st.cleanup_list) :
    x ∈ (download_files p net n st urls).state.cleanup_list := by
  obtain ⟨s, hgrow⟩ := download_files_cleanup_grows p net n urls st
  rw [hgrow]
  exact List.mem_append_left _ hx

/-- A successful download step advances to the rest of the urls with the
counter bumped and the cleanup list untouched. -/
theorem download_files_success_cons (p : Params) (net : String → NetResult) (n : Nat)
    (st : DownloadState) (u : String) (rest : List String) (h : net u = .success) :
    ∃ st' : DownloadState, download_files p net n st (u :: rest) =
      download_files p net n st' rest ∧
      st'.download_count = st.download_count + 1 ∧ st'.cleanup_list = st.cleanup_list := by
  by_cases hz : p.product_is_zip = true
  · refine ⟨⟨st.download_count + 1, st.attempted ++ [u],
      st.written ++ [local_file_path p u], st.local_tile_path_list,
      st.local_zip_path_list ++ [local_file_path p u], st.cleanup_list⟩, ?_, rfl, rfl⟩
    conv_lhs => unfold download_files
    simp only [h]
    rw [if_pos hz]
  · refine ⟨⟨st.download_count + 1, st.attempted ++ [u],
      st.written ++ [local_file_path p u],
      st.local_tile_path_list ++ [local_file_path p u], st.local_zip_path_list,
      st.cleanup_list⟩, ?_, rfl, rfl⟩
    conv_lhs => unfold download_files
    simp only [h]
    rw [if_neg hz]

/-- A write failure with zero completed downloads registers the partial file
and silently continues with the remaining urls. -/
theorem download_files_writeError_cons (p : Params) (net : String → NetResult) (n : Nat)
    (st : DownloadState) (u : String) (rest : List String) (h : net u = .writeError)
    (hc : st.download_count = 0) :
    download_files p net n st (u :: rest) =
      download_files p net n
        { st with
          attempted := st.attempted ++ [u]
          written := st.written ++ [local_file_path p u]
          cleanup_list := st.cleanup_list ++ [local_file_path p u] } rest := by
  conv_lhs => unfold download_files
  simp only [h]
  rw [if_neg (by simp [hc])]

/-- A write failure after at least one completed download registers the
partial file and aborts with the numbered fatal message. -/
theorem download_files_writeError_fatal (p : Params) (net : String → NetResult) (n : Nat)
    (st : DownloadState) (u : String) (rest : List String) (h : net u = .writeError)
    (hc : st.download_count ≠ 0) :
    download_files p net n st (u :: rest) =
      .fatal ("Download " ++ toString st.download_count ++ " of " ++ toString n ++ ": FAILED")
        { st with
          attempted := st.attempted ++ [u]
          written := st.written ++ [local_file_path p u]
          cleanup_list := st.cleanup_list ++ [local_file_path p u] } := by
  conv_lhs => unfold download_files
  simp only [h]
  rw [if_pos (by simpa using hc)]

/-- C4 amended: when a download fails mid-write with a non-network error, the
partial file is always registered with the cleanup list; the run aborts
fatally — reporting the number of downloads completed so far out of the total
— only when at least one download already completed, and when the failure
strikes with zero completed downloads the loop instead proceeds silently to
the remaining urls. -/
theorem c4_amended (p : Params) (net : String → NetResult) (n : Nat) :
    ∀ (us₁ : List String) (st : DownloadState) (u : String) (us₂ : List String),
      (∀ v ∈ us₁, net v = .success) → net u = .writeError →
      (local_file_path p u ∈
        (download_files p net n st (us₁ ++ u :: us₂)).state.cleanup_list) ∧
      (st.download_count + us₁.length ≠ 0 →
        ∃ st', download_files p net n st (us₁ ++ u :: us₂) =
          .fatal ("Download " ++ toString (st.download_count + us₁.length) ++ " of " ++
            toString n ++ ": FAILED") st') ∧
      (st.download_count = 0 → us₁ = [] →
        download_files p net n st (us₁ ++ u :: us₂) =
          download_files p net n
            { st with
              attempted := st.attempted ++ [u]
              written := st.written ++ [local_file_path p u]
              cleanup_list := st.cleanup_list ++ [local_file_path p u] } us₂) := by
  intro us₁
  induction us₁ with
  | nil =>
    intro st u us₂ _ hu
    rw [List.nil_append]
    simp only [List.length_nil, Nat.add_zero]
    refine ⟨?_, ?_, ?_⟩
    · by_cases hc : st.download_count = 0
      · rw [download_files_writeError_cons p net n st u us₂ hu hc]
        exact download_files_cleanup_mem _ _ _ _ _ _ (by simp)
      · rw [download_files_writeError_fatal p net n st u us₂ hu hc]
        simp [LoopResult.state]
    · intro hc
      exact ⟨_, download_files_writeError_fatal p net n st u us₂ hu hc⟩
    · intro hc _
      exact download_files_writeError_cons p net n st u us₂ hu hc
  | cons v us₁ ih =>
    intro st u us₂ hs hu
    have hv : net v = .success := hs v (by simp)
    have hs' : ∀ x ∈ us₁, net x = .success := fun x hx => hs x (by simp [hx])
    rw [List.cons_append]
    obtain ⟨st', heq, hcount, hclean⟩ :=
      download_files_success_cons p net n st v (us₁ ++ u :: us₂) hv
    rw [heq]
    have harith : st'.download_count + us₁.length = st.download_count + (v :: us₁).length := by
      rw [hcount, List.length_cons]
      omega
    refine ⟨(ih st' u us₂ hs' hu).1, ?_, ?_⟩
    · intro _
      obtain ⟨st'', h2⟩ := (ih st' u us₂ hs' hu).2.1 (by omega)
      rw [harith] at h2
      exact ⟨st'', h2⟩
    · intro _ hc
      exact absurd hc (by simp)

/-- Witness for `c4_amended`: after one completed download, a write failure
aborts with the numbered message, and the partial file is registered. -/
theorem c4_amended_witness :
    local_file_path p_ned "http://h/d1.img" ∈
      (download_files p_ned net_first_fails 2 dl_init
        (["http://h/d2.img"] ++ "http://h/d1.img" :: [])).state.cleanup_list ∧
    ∃ st', download_files p_ned net_first_fails 2 dl_init
        (["http://h/d2.img"] ++ "http://h/d1.img" :: []) =
      .fatal ("Download " ++ toString (dl_init.download_count + ["http://h/d2.img"].length) ++
        " of " ++ toString 2 ++ ": FAILED") st' := by
  have h := c4_amended p_ned net_first_fails 2 ["http://h/d2.img"] dl_init "http://h/d1.img" []
    (by decide) (by decide)
  exact ⟨h.1, h.2.1 (by decide)⟩

/-- The member loop leaves the cleanup list untouched. -/
theorem extract_members_cleanup (p : Params) :
    ∀ (ms : List String) (st : ExtractState),
      (extract_members p st ms).cleanup_list = st.cleanup_list := by
  intro ms
  induction ms with
  | nil => intro st; rfl
  | cons f rest ih =>
    intro st
    unfold extract_members
    split
    · exact ih _
    · exact ih _

/-- The member loop leaves the tile list untouched. -/
theorem extract_members_tiles (p : Params) :
    ∀ (ms : List String) (st : ExtractState),
      (extract_members p st ms).local_tile_path_list = st.local_tile_path_list := by
  intro ms
  induction ms with
  | nil => intro st; rfl
  | cons f rest ih =>
    intro st
    unfold extract_members
    split
    · exact ih _
    · exact ih _

/-- After the member loop a path is on disk iff it was before or it is the
destination of some member ending in the product extension: EVERY matching
member is extracted, not only the first. -/
theorem extract_members_fs (p : Params) :
    ∀ (ms : List String) (st : ExtractState) (x : String),
      ((extract_members p st ms).fs x = true ↔
        st.fs x = true ∨
          x ∈ (ms.filter (fun f => strEndsWith f p.product_extension)).map
            (fun f => p.work_dir ++ "/" ++ f)) := by
  intro ms
  induction ms with
  | nil => intro st x; simp [extract_members]
  | cons f rest ih =>
    intro st x
    unfold extract_members
    by_cases hf : strEndsWith f p.product_extension = true
    · rw [if_pos hf, ih]
      simp only [List.filter_cons, hf, if_true, List.map_cons, List.mem_cons,
        Bool.or_eq_true, beq_iff_eq]
      tauto
    · rw [if_neg hf, ih]
      simp [List.filter_cons, hf]

/-- After the member loop `extracted_tile` holds the destination of the LAST
matching member, or keeps its previous value when no member matches. -/
theorem extract_members_extracted_tile (p : Params) :
    ∀ (ms : List String) (st : ExtractState),
      (extract_members p st ms).extracted_tile =
        match last_match p ms with
        | some t => some t
        | none => st.extracted_tile := by
  intro ms
  induction ms with
  | nil => intro st; rfl
  | cons f rest ih =>
    intro st
    unfold extract_members last_match
    by_cases hf : strEndsWith f p.product_extension = true
    · rw [if_pos hf, ih]
      cases h : last_match p rest <;> simp [h, hf]
    · rw [if_neg hf, ih]
      cases h : last_match p rest <;> simp [h, hf]

/-- An unopenable archive before any member ever matched: the handler itself
re-raises the unbound-name error, registering nothing. -/
theorem extract_archive_open_fail_unbound (p : Params) (zo : String → Option (List String))
    (st : ExtractState) (z : String) (ho : zo z = none) (ht : st.extracted_tile = none) :
    extract_archive p zo st z = .nameError st := by
  simp only [extract_archive, ho, ht]

/-- An unopenable archive after some earlier member matched: that earlier
tile path (not this archive's) is registered before the fatal error. -/
theorem extract_archive_open_fail_bound (p : Params) (zo : String → Option (List String))
    (st : ExtractState) (z : String) (t : String) (ho : zo z = none)
    (ht : st.extracted_tile = some t) :
    extract_archive p zo st z =
      .fatalMsg { st with cleanup_list := st.cleanup_list ++ [t] } := by
  simp only [extract_archive, ho, ht]

/-- A readable archive with no matching member, before any earlier match:
line 554 raises the unbound-name error, which the handler re-raises at
line 558 — no cleanup registration, no `gscript.fatal`. -/
theorem extract_archive_no_match_unbound (p : Params) (zo : String → Option (List String))
    (st : ExtractState) (z : String) (ms : List String) (ho : zo z = some ms)
    (ht : st.extracted_tile = none) (hlm : last_match p ms = none) :
    extract_archive p zo st z = .nameError (extract_members p st ms) := by
  have he : (extract_members p st ms).extracted_tile = none := by
    simp [extract_members_extracted_tile p ms st, hlm, ht]
  simp only [extract_archive, ho, he]

/-- C8 is refuted on the code: the member loop of lines 546-553 has no
`break`, so an archive with two members ending in the extension has BOTH
extracted, and the recorded tile is the SECOND (last) one, not the first. -/
theorem c8_counterexample :
    (extract_archive p_ned zip_two_members ex_init "/w/a.zip").state.fs "/w/x.img" = true ∧
    (extract_archive p_ned zip_two_members ex_init "/w/a.zip").state.fs "/w/y.img" = true ∧
    (extract_archive p_ned zip_two_members ex_init "/w/a.zip").state.extracted_tile =
      some "/w/y.img" ∧
    (extract_archive p_ned zip_two_members ex_init "/w/a.zip").state.local_tile_path_list =
      ["/w/y.img"] := by
  refine ⟨?_, ?_, ?_, ?_⟩ <;> decide

/-- C8 amended: extraction extracts EVERY member whose name ends with the
product's file extension (each overwritten idempotently: removed first when
already present, so present afterwards either way), and records the LAST
matching member's path as the tile.  On failure — archive unreadable or no
member matching — the run aborts, but the cleanup registration only happens
when an earlier match left `extracted_tile` bound, in which case that earlier
path is registered; with no earlier match the failure handler itself raises
an unhandled name error and registers nothing. -/
theorem c8_amended :
    (∀ (p : Params) (ms : List String) (st : ExtractState) (x : String),
      ((extract_members p st ms).fs x = true ↔
        st.fs x = true ∨
          x ∈ (ms.filter (fun f => strEndsWith f p.product_extension)).map
            (fun f => p.work_dir ++ "/" ++ f))) ∧
    (∀ (p : Params) (ms : List String) (st : ExtractState),
      (extract_members p st ms).extracted_tile =
        match last_match p ms with
        | some t => some t
        | none => st.extracted_tile) ∧
    (∀ (p : Params) (zo : String → Option (List String)) (st : ExtractState) (z : String),
      zo z = none → st.extracted_tile = none → extract_archive p zo st z = .nameError st) ∧
    (∀ (p : Params) (zo : String → Option (List String)) (st : ExtractState) (z t : String),
      zo z = none → st.extracted_tile = some t →
      extract_archive p zo st z =
        .fatalMsg { st with cleanup_list := st.cleanup_list ++ [t] }) ∧
    (∀ (p : Params) (zo : String → Option (List String)) (st : ExtractState) (z : String)
      (ms : List String), zo z = some ms → st.extracted_tile = none →
      last_match p ms = none →
      extract_archive p zo st z = .nameError (extract_members p st ms)) :=
  ⟨fun p ms st x => extract_members_fs p ms st x,
    fun p ms st => extract_members_extracted_tile p ms st,
    fun p zo st z ho ht => extract_archive_open_fail_unbound p zo st z ho ht,
    fun p zo st z t ho ht => extract_archive_open_fail_bound p zo st z t ho ht,
    fun p zo st z ms ho ht hlm => extract_archive_no_match_unbound p zo st z ms ho ht hlm⟩

/-- Witness for `c8_amended`: both fixture members end up on disk, the second
is the recorded tile, and an unreadable archive with nothing yet recorded
ends in the unhandled name error. -/
theorem c8_amended_witness :
    ((extract_members p_ned ex_init ["x.img", "y.img"]).fs "/w/y.img" = true ↔
      (ex_init.fs "/w/y.img" = true ∨
        "/w/y.img" ∈ ((["x.img", "y.img"].filter
            (fun f => strEndsWith f p_ned.product_extension)).map
          (fun f => p_ned.work_dir ++ "/" ++ f)))) ∧
    extract_archive p_ned (fun _ => none) ex_init "/w/a.zip" = .nameError ex_init := by
  exact ⟨c8_amended.1 p_ned ["x.img", "y.img"] ex_init "/w/y.img",
    c8_amended.2.2.1 p_ned (fun _ => none) ex_init "/w/a.zip" rfl rfl⟩

/-- With enough fuel, a number below `10 ^ k` has at most `k` digits. -/
theorem dec_len_go_le : ∀ (fuel k n : Nat), n ≤ fuel → 1 ≤ k → n < 10 ^ k →
    dec_len_go fuel n ≤ k := by
  intro fuel
  induction fuel with
  | zero =>
    intro k n _ hk _
    unfold dec_len_go
    omega
  | succ fuel ih =>
    intro k n hn hk hpow
    unfold dec_len_go
    by_cases h10 : n < 10
    · rw [if_pos h10]; exact hk
    · rw [if_neg h10]
      have hk2 : 2 ≤ k := by
        by_contra hcon
        have hk1 : k = 1 := by omega
        rw [hk1] at hpow
        simp at hpow
        omega
      have hfuel : n / 10 ≤ fuel := by omega
      have hmul : 10 ^ (k - 1) * 10 = 10 ^ k := by
        rw [← pow_succ]
        congr 1
        omega
      have hdiv : n / 10 < 10 ^ (k - 1) := by
        rw [Nat.div_lt_iff_lt_mul (by norm_num)]
        omega
      have := ih (k - 1) (n / 10) hfuel (by omega) hdiv
      omega

/-- With enough fuel, a number at least `10 ^ k` has more than `k` digits. -/
theorem le_dec_len_go : ∀ (fuel k n : Nat), n ≤ fuel → 10 ^ k ≤ n →
    k + 1 ≤ dec_len_go fuel n := by
  intro fuel
  induction fuel with
  | zero =>
    intro k n hn hpow
    have h1 : 1 ≤ 10 ^ k := Nat.one_le_pow k 10 (by norm_num)
    omega
  | succ fuel ih =>
    intro k n hn hpow
    unfold dec_len_go
    by_cases h10 : n < 10
    · rw [if_pos h10]
      have hk : k = 0 := by
        by_contra hk
        have : 10 ≤ 10 ^ k := by
          calc 10 = 10 ^ 1 := by norm_num
          _ ≤ 10 ^ k := Nat.pow_le_pow_right (by norm_num) (by omega)
        omega
      omega
    · rw [if_neg h10]
      cases k with
      | zero => omega
      | succ j =>
        have hdiv : 10 ^ j ≤ n / 10 := by
          rw [Nat.le_div_iff_mul_le (by norm_num)]
          calc 10 ^ j * 10 = 10 ^ (j + 1) := by rw [pow_succ]
          _ ≤ n := hpow
        have hfuel : n / 10 ≤ fuel := by omega
        have := ih j (n / 10) hfuel hdiv
        omega

/-- At most 999999 means at most six digits. -/
theorem dec_len_le_six (n : Nat) (h : n ≤ 999999) : dec_len n ≤ 6 :=
  dec_len_go_le n 6 n le_rfl (by norm_num)
    (by rw [show (10 : Nat) ^ 6 = 1000000 from by norm_num]; omega)

/-- At least 1000000 means at least seven digits. -/
theorem seven_le_dec_len (n : Nat) (h : 1000000 ≤ n) : 7 ≤ dec_len n :=
  le_dec_len_go n 6 n le_rfl
    (by rw [show (10 : Nat) ^ 6 = 1000000 from by norm_num]; omega)

/-- With a non-empty size list summing to at most six digits, neither
formatting branch fires, so `total_size_str` stays unassigned. -/
theorem total_size_str_small_none (sizes : List Nat) (hne : sizes ≠ [])
    (hsum : sizes.sum ≤ 999999) : total_size_str sizes = none := by
  have hne' : sizes.isEmpty = false := by
    cases sizes with
    | nil => exact absurd rfl hne
    | cons a l => rfl
  have h6 := dec_len_le_six sizes.sum hsum
  simp only [total_size_str, hne', Bool.false_eq_true, if_false]
  rw [if_neg (by omega), if_neg (by omega)]

/-- The formatting branch assigns exactly for an empty plan or a total of
seven or more digits. -/
theorem total_size_str_isSome_iff (sizes : List Nat) :
    (total_size_str sizes).isSome = true ↔ (sizes = [] ∨ 7 ≤ dec_len sizes.sum) := by
  cases sizes with
  | nil => simp [total_size_str]
  | cons a l =>
    simp only [total_size_str, List.isEmpty_cons, Bool.false_eq_true, if_false]
    by_cases h1 : 6 < dec_len (a :: l).sum ∧ dec_len (a :: l).sum < 10
    · rw [if_pos h1]
      simp only [Option.isSome_some, true_iff]
      right
      omega
    · rw [if_neg h1]
      by_cases h2 : 10 ≤ dec_len (a :: l).sum
      · rw [if_pos h2]
        simp only [Option.isSome_some, true_iff]
        right
        omega
      · rw [if_neg h2]
        simp only [Option.isSome_none, Bool.false_eq_true, false_iff, not_or]
        refine ⟨by simp, by omega⟩

/-- One classification step keeps the url and size lists the same length. -/
theorem classify_step_len (p : Params) (fs : String → Option Nat) (st : ClassifyState)
    (f : Entry) (h : st.dwnld_url.length = st.dwnld_size.length) :
    (classify_step p fs st f).dwnld_url.length =
      (classify_step p fs st f).dwnld_size.length := by
  unfold classify_step
  cases hf : fs (local_file_path p f.downloadURL) with
  | none =>
    simp only [hf]
    split <;> simp [down_list, h]
  | some sz =>
    simp only [hf]
    split
    · split <;> simp [down_list, h]
    · split <;> simp [exist_list, h]

/-- After classification the url and size lists have equal length. -/
theorem classify_len (p : Params) (fs : String → Option Nat) (items : List Entry) :
    (classify p fs items).dwnld_url.length = (classify p fs items).dwnld_size.length := by
  have haux : ∀ (l : List Entry) (st : ClassifyState),
      st.dwnld_url.length = st.dwnld_size.length →
      (l.foldl (classify_step p fs) st).dwnld_url.length =
        (l.foldl (classify_step p fs) st).dwnld_size.length := by
    intro l
    induction l with
    | nil => intro st h; exact h
    | cons f rest ih => intro st h; exact ih _ (classify_step_len p fs st f h)
  exact haux items initClassifyState rfl

/-- With a positive download count, the report formatting propagates the
unassigned size string into a crash. -/
theorem data_info_none (fdc : Nat) (titles : List String) (sizes : List Nat)
    (hfdc : 0 < fdc) (hs : total_size_str sizes = none) :
    data_info fdc titles sizes = none := by
  unfold data_info
  rw [if_neg (by omega), hs]
  rfl

/-- With no stale file and a plan whose report crashes, the run ends in the
unbound-name outcome. -/
theorem run_name_error_case (p : Params) (g : Gui) (w : World) (total : Nat)
    (items : List Entry) (htotal : total ≠ 0)
    (hclean : (classify p w.fs_size items).cleanup_list = [])
    (hdi : data_info (file_download_count (classify p w.fs_size items))
      (remove_existing (classify p w.fs_size items)).TNM_file_titles
      (remove_existing (classify p w.fs_size items)).dwnld_size = none) :
    (run p g w total items).outcome = .nameErrorSize := by
  unfold run
  rw [if_neg htotal]
  have hisE : ((remove_existing (classify p w.fs_size items)).cleanup_list).isEmpty = true := by
    show ((classify p w.fs_size items).cleanup_list).isEmpty = true
    rw [hclean]
    rfl
  simp only [hisE, if_true]
  rw [hdi]

/-- C10 (confirmed): for every non-empty download plan whose total byte size
has at most six decimal digits, `total_size_str` is never assigned, and the
pre-download report formatting crashes on the unbound name instead of
printing; the formatting is total exactly for an empty plan or a total of
seven or more digits. -/
theorem c10_total_size_unassigned :
    (∀ sizes : List Nat, sizes ≠ [] → sizes.sum ≤ 999999 → total_size_str sizes = none) ∧
    (∀ sizes : List Nat, (total_size_str sizes).isSome = true ↔
      (sizes = [] ∨ 7 ≤ dec_len sizes.sum)) ∧
    (∀ (p : Params) (fs : String → Option Nat) (items : List Entry),
      (classify p fs items).dwnld_url ≠ [] →
      (classify p fs items).dwnld_size.sum ≤ 999999 →
      data_info (file_download_count (classify p fs items))
        (remove_existing (classify p fs items)).TNM_file_titles
        (remove_existing (classify p fs items)).dwnld_size = none) ∧
    (∀ (p : Params) (g : Gui) (w : World) (total : Nat) (items : List Entry),
      total ≠ 0 → (classify p w.fs_size items).cleanup_list = [] →
      (classify p w.fs_size items).dwnld_url ≠ [] →
      (classify p w.fs_size items).dwnld_size.sum ≤ 999999 →
      (run p g w total items).outcome = .nameErrorSize) := by
  have hdn : ∀ (p : Params) (fs : String → Option Nat) (items : List Entry),
      (classify p fs items).dwnld_url ≠ [] →
      (classify p fs items).dwnld_size.sum ≤ 999999 →
      data_info (file_download_count (classify p fs items))
        (remove_existing (classify p fs items)).TNM_file_titles
        (remove_existing (classify p fs items)).dwnld_size = none := by
    intro p fs items hurl hsum
    have hlen := classify_len p fs items
    have hne : (classify p fs items).dwnld_size ≠ [] := by
      intro h
      apply hurl
      rw [h] at hlen
      simpa using List.length_eq_zero.mp (by simpa using hlen)
    have hfdc : 0 < file_download_count (classify p fs items) := by
      unfold file_download_count
      cases hu : (classify p fs items).dwnld_url with
      | nil => exact absurd hu hurl
      | cons a l => simp
    exact data_info_none _ _ _ hfdc (total_size_str_small_none _ hne hsum)
  refine ⟨fun sizes hne hsum => total_size_str_small_none sizes hne hsum,
    fun sizes => total_size_str_isSome_iff sizes, hdn, ?_⟩
  intro p g w total items htotal hclean hurl hsum
  exact run_name_error_case p g w total items htotal hclean (hdn p w.fs_size items hurl hsum)

/-- Witness for `c10_total_size_unassigned`: one 100-byte ned tile to
download — the size string stays unassigned and the fixture run crashes on
the unbound name. -/
theorem c10_witness :
    total_size_str [100] = none ∧
    (run p_ned g_plain w_empty 1 [entry_stale]).outcome = .nameErrorSize := by
  refine ⟨c10_total_size_unassigned.1 [100] (by decide) (by decide), ?_⟩
  exact c10_total_size_unassigned.2.2.2 p_ned g_plain w_empty 1 [entry_stale]
    (by decide) (by decide) (by decide) (by decide)

/-- Unequal counts are fatal at the count check of line 585. -/
theorem assemble_mismatch (pk : Bool) (o : String) (c n : Nat) (h : c ≠ n) :
    assemble pk o c n = .fatalMismatch := by
  unfold assemble
  rw [if_neg h]

/-- A patched composite always carries the requested output name. -/
theorem assemble_patched_inv (pk : Bool) (o : String) (c n : Nat) (l : String)
    (h : assemble pk o c n = .patched l) : l = o := by
  unfold assemble at h
  split at h <;> (try split at h) <;> (try split at h) <;> simp_all

/-- A renamed lone layer always carries the requested output name. -/
theorem assemble_renamed_inv (pk : Bool) (o : String) (c n : Nat) (l : String)
    (h : assemble pk o c n = .renamed l) : l = o := by
  unfold assemble at h
  split at h <;> (try split at h) <;> (try split at h) <;> simp_all

/-- The fall-through with no output happens exactly at equal zero counts. -/
theorem assemble_no_output_inv (pk : Bool) (o : String) (c n : Nat)
    (h : assemble pk o c n = .no_output) : c = n ∧ n = 0 := by
  unfold assemble at h
  split at h <;> (try split at h) <;> (try split at h) <;> simp_all
  omega

/-- Output-layer invariants of the import-and-assembly stage. -/
theorem run_assembly_output (w : World) (g : Gui) (a : List String) (n : Nat)
    (est : ExtractState) :
    ((run_assembly w g a n est).outcome = .fatalCountMismatch →
      (run_assembly w g a n est).output_layer = none) ∧
    (∀ l, (run_assembly w g a n est).outcome = .success (some l) →
      (run_assembly w g a n est).output_layer = some l ∧ l = g.gui_output_layer) ∧
    ((run_assembly w g a n est).outcome = .success none →
      (run_assembly w g a n est).output_layer = none ∧ n = 0) ∧
    (run_assembly w g a n est).tiles_needed = n := by
  unfold run_assembly
  split
  · simp
  · split
    next out heq =>
      have hl := assemble_patched_inv _ _ _ _ _ heq
      subst hl
      simp
    next out heq =>
      have hl := assemble_renamed_inv _ _ _ _ _ heq
      subst hl
      simp
    next heq =>
      have hn := assemble_no_output_inv _ _ _ _ heq
      simp [hn.2]
    next heq => simp
    next heq => simp

/-- Output-layer invariants of the post-download stage. -/
theorem run_post_download_output (p : Params) (g : Gui) (w : World) (st : ClassifyState)
    (dst : DownloadState) :
    ((run_post_download p g w st dst).outcome = .fatalCountMismatch →
      (run_post_download p g w st dst).output_layer = none) ∧
    (∀ l, (run_post_download p g w st dst).outcome = .success (some l) →
      (run_post_download p g w st dst).output_layer = some l ∧ l = g.gui_output_layer) ∧
    ((run_post_download p g w st dst).outcome = .success none →
      (run_post_download p g w st dst).output_layer = none ∧ st.tiles_needed_count = 0) ∧
    (run_post_download p g w st dst).tiles_needed = st.tiles_needed_count := by
  unfold run_post_download
  split
  · split
    · simp
    · simp
    · exact run_assembly_output w g dst.attempted st.tiles_needed_count _
  · exact run_assembly_output w g dst.attempted st.tiles_needed_count _

/-- Output-layer invariants of the whole run: a count-mismatch fatal never
carries an output; a successful run's output layer is exactly the reported
one and is the caller's requested name; a successful run with no output means
the needed count was zero. -/
theorem run_output_inv (p : Params) (g : Gui) (w : World) (total : Nat)
    (items : List Entry) :
    ((run p g w total items).outcome = .fatalCountMismatch →
      (run p g w total items).output_layer = none) ∧
    (∀ l, (run p g w total items).outcome = .success (some l) →
      (run p g w total items).output_layer = some l ∧ l = g.gui_output_layer) ∧
    ((run p g w total items).outcome = .success none →
      (run p g w total items).output_layer = none ∧
      (run p g w total items).tiles_needed = 0) := by
  unfold run
  split
  · simp
  · split
    · split
      · simp
      · split
        · simp
        · split
          · simp
          · next dst hdl =>
            have h := run_post_download_output p g w
              (remove_existing (classify p w.fs_size items)) dst
            exact ⟨h.1, h.2.1, fun hs => ⟨(h.2.2.1 hs).1, by
              rw [h.2.2.2]
              exact (h.2.2.1 hs).2⟩⟩
    · simp

/-- C7 is refuted on the code: a run whose entries are all filtered out
reaches the count check with `0 = 0`, falls through both the patch and the
rename branches, and terminates successfully WITHOUT producing any
composite or renamed output layer — a terminal state the claim says cannot
exist. -/
theorem c7_counterexample :
    (run p_nlcd g_plain w_empty 1 [entry_filtered_new]).outcome = .success none ∧
    (run p_nlcd g_plain w_empty 1 [entry_filtered_new]).output_layer = none := by
  constructor <;> decide

/-- C7 amended: a count mismatch is fatal with no composite/renamed output,
and a successfully terminating run carries exactly one output layer named as
requested — EXCEPT that when the needed count is zero the run terminates
successfully with no output layer at all. -/
theorem c7_amended :
    (∀ (pk : Bool) (o : String) (c n : Nat), c ≠ n → assemble pk o c n = .fatalMismatch) ∧
    (∀ (p : Params) (g : Gui) (w : World) (total : Nat) (items : List Entry),
      ((run p g w total items).outcome = .fatalCountMismatch →
        (run p g w total items).output_layer = none) ∧
      (∀ l, (run p g w total items).outcome = .success (some l) →
        (run p g w total items).output_layer = some l ∧ l = g.gui_output_layer) ∧
      ((run p g w total items).outcome = .success none →
        (run p g w total items).output_layer = none ∧
        (run p g w total items).tiles_needed = 0)) :=
  ⟨fun pk o c n h => assemble_mismatch pk o c n h,
    fun p g w total items => run_output_inv p g w total items⟩

/-- Witness for `c7_amended`: a concrete mismatch is fatal, and the
zero-needed fixture run ends with no output layer and needed count zero. -/
theorem c7_witness :
    assemble true "out" 2 3 = .fatalMismatch ∧
    (run p_nlcd g_plain w_empty 1 [entry_filtered_new]).output_layer = none ∧
    (run p_nlcd g_plain w_empty 1 [entry_filtered_new]).tiles_needed = 0 := by
  refine ⟨c7_amended.1 true "out" 2 3 (by decide), ?_⟩
  exact (c7_amended.2 p_nlcd g_plain w_empty 1 [entry_filtered_new]).2.2 (by decide)

/-- One archive's processing only appends to the cleanup list. -/
theorem extract_archive_cleanup_grows (p : Params) (zo : String → Option (List String))
    (st : ExtractState) (z : String) :
    growsTo st.cleanup_list (extract_archive p zo st z).state.cleanup_list := by
  unfold extract_archive
  cases ho : zo z with
  | some ms =>
    simp only [ho]
    cases ht : (extract_members p st ms).extracted_tile with
    | none =>
      simp only [ht]
      exact ⟨[], by simp [ExtractResult.state, extract_members_cleanup p ms st]⟩
    | some t =>
      simp only [ht]
      split
      · exact ⟨[t], by simp [ExtractResult.state, extract_members_cleanup p ms st]⟩
      · exact ⟨[], by simp [ExtractResult.state, extract_members_cleanup p ms st]⟩
  | none =>
    simp only [ho]
    cases ht : st.extracted_tile with
    | none => simp only [ht]; exact growsTo_refl _
    | some t => simp only [ht]; exact ⟨[t], rfl⟩

/-- The archive loop only appends to the cleanup list. -/
theorem extract_zips_cleanup_grows (p : Params) (zo : String → Option (List String)) :
    ∀ (zs : List String) (st : ExtractState),
      growsTo st.cleanup_list (extract_zips p zo st zs).state.cleanup_list := by
  intro zs
  induction zs with
  | nil => intro st; exact growsTo_refl _
  | cons z rest ih =>
    intro st
    unfold extract_zips
    cases hr : extract_archive p zo st z with
    | ok st' =>
      simp only [hr]
      have h1 := extract_archive_cleanup_grows p zo st z
      rw [hr] at h1
      exact growsTo_trans h1 (ih st')
    | fatalMsg st' =>
      simp only [hr]
      have h1 := extract_archive_cleanup_grows p zo st z
      rw [hr] at h1
      exact h1
    | nameError st' =>
      simp only [hr]
      have h1 := extract_archive_cleanup_grows p zo st z
      rw [hr] at h1
      exact h1

/-- The import loop only appends to the cleanup list. -/
theorem import_tiles_cleanup_grows (io : String → Bool) (k : Bool) :
    ∀ (ts : List String) (st : ImportState),
      growsTo st.cleanup_list (import_tiles io k st ts).state.cleanup_list := by
  intro ts
  induction ts with
  | nil => intro st; exact growsTo_refl _
  | cons t rest ih =>
    intro st
    unfold import_tiles
    by_cases hio : io t = true
    · rw [if_pos hio]
      by_cases hk : k = true
      · rw [if_pos hk]
        exact ih _
      · rw [if_neg hk]
        exact growsTo_trans ⟨[t], rfl⟩ (ih _)
    · rw [if_neg hio]
      exact growsTo_refl _

/-- The import-and-assembly stage only appends to the cleanup list. -/
theorem run_assembly_cleanup_grows (w : World) (g : Gui) (a : List String) (n : Nat)
    (est : ExtractState) :
    growsTo est.cleanup_list (run_assembly w g a n est).cleanup_list := by
  unfold run_assembly
  cases him : import_tiles w.importOk g.gui_k_flag ⟨[], est.cleanup_list⟩
      est.local_tile_path_list with
  | fatal msg ist =>
    simp only [him]
    have h1 := import_tiles_cleanup_grows w.importOk g.gui_k_flag
      est.local_tile_path_list ⟨[], est.cleanup_list⟩
    rw [him] at h1
    exact h1
  | ok ist =>
    simp only [him]
    have h1 := import_tiles_cleanup_grows w.importOk g.gui_k_flag
      est.local_tile_path_list ⟨[], est.cleanup_list⟩
    rw [him] at h1
    split <;> exact h1

/-- The post-download stage only appends to the cleanup list. -/
theorem run_post_download_cleanup_grows (p : Params) (g : Gui) (w : World)
    (st : ClassifyState) (dst : DownloadState) :
    growsTo dst.cleanup_list (run_post_download p g w st dst).cleanup_list := by
  unfold run_post_download
  split
  · split
    next est heq =>
      have h1 := extract_zips_cleanup_grows p w.zipOpen
        (dst.local_zip_path_list ++ st.exist_zip_list)
        ⟨fun x => (w.fs_size x).isSome || dst.written.contains x, none,
          dst.local_tile_path_list ++ st.exist_tile_list, dst.cleanup_list⟩
      rw [heq] at h1
      exact h1
    next est heq =>
      have h1 := extract_zips_cleanup_grows p w.zipOpen
        (dst.local_zip_path_list ++ st.exist_zip_list)
        ⟨fun x => (w.fs_size x).isSome || dst.written.contains x, none,
          dst.local_tile_path_list ++ st.exist_tile_list, dst.cleanup_list⟩
      rw [heq] at h1
      exact h1
    next est heq =>
      have h1 := extract_zips_cleanup_grows p w.zipOpen
        (dst.local_zip_path_list ++ st.exist_zip_list)
        ⟨fun x => (w.fs_size x).isSome || dst.written.contains x, none,
          dst.local_tile_path_list ++ st.exist_tile_list, dst.cleanup_list⟩
      rw [heq] at h1
      exact growsTo_trans h1
        (run_assembly_cleanup_grows w g dst.attempted st.tiles_needed_count est)
  · exact run_assembly_cleanup_grows w g dst.attempted st.tiles_needed_count _

/-- From classification on, the run only appends to the cleanup list. -/
theorem run_cleanup_grows (p : Params) (g : Gui) (w : World) (total : Nat)
    (items : List Entry) (htotal : total ≠ 0) :
    growsTo (classify p w.fs_size items).cleanup_list (run p g w total items).cleanup_list := by
  unfold run
  rw [if_neg htotal]
  split
  · split
    · exact growsTo_refl _
    · split
      · exact growsTo_refl _
      · split
        next msg dst hdl =>
          have h1 := download_files_cleanup_grows p w.net
            (remove_existing (classify p w.fs_size items)).dwnld_url.length
            (remove_existing (classify p w.fs_size items)).dwnld_url
            ⟨0, [], [], [], [], (remove_existing (classify p w.fs_size items)).cleanup_list⟩
          rw [hdl] at h1
          exact h1
        next dst hdl =>
          have h1 := download_files_cleanup_grows p w.net
            (remove_existing (classify p w.fs_size items)).dwnld_url.length
            (remove_existing (classify p w.fs_size items)).dwnld_url
            ⟨0, [], [], [], [], (remove_existing (classify p w.fs_size items)).cleanup_list⟩
          rw [hdl] at h1
          exact growsTo_trans h1 (run_post_download_cleanup_grows p g w _ dst)
  · exact growsTo_refl _

/-- C9 (confirmed): the cleanup registry only grows — each phase of the run
appends and never removes — the whole run's final registry extends the
classification's, and the drain at exit removes exactly the registered paths
(registered paths end gone, unregistered paths keep their prior state). -/
theorem c9_cleanup_monotone_drain :
    (∀ (p : Params) (fs : String → Option Nat) (st : ClassifyState) (f : Entry),
      growsTo st.cleanup_list (classify_step p fs st f).cleanup_list) ∧
    (∀ (p : Params) (net : String → NetResult) (n : Nat) (urls : List String)
      (st : DownloadState),
      growsTo st.cleanup_list (download_files p net n st urls).state.cleanup_list) ∧
    (∀ (p : Params) (zo : String → Option (List String)) (zs : List String)
      (st : ExtractState),
      growsTo st.cleanup_list (extract_zips p zo st zs).state.cleanup_list) ∧
    (∀ (io : String → Bool) (k : Bool) (ts : List String) (st : ImportState),
      growsTo st.cleanup_list (import_tiles io k st ts).state.cleanup_list) ∧
    (∀ (p : Params) (g : Gui) (w : World) (total : Nat) (items : List Entry), total ≠ 0 →
      growsTo (classify p w.fs_size items).cleanup_list (run p g w total items).cleanup_list) ∧
    (∀ (cl : List String) (e : String → Bool) (f : String), f ∈ cl → drain cl e f = false) ∧
    (∀ (cl : List String) (e : String → Bool) (f : String), f ∉ cl → drain cl e f = e f) :=
  ⟨fun p fs st f => ⟨stale_paths p fs [f], classify_step_cleanup_list p fs st f⟩,
    fun p net n urls st => download_files_cleanup_grows p net n urls st,
    fun p zo zs st => extract_zips_cleanup_grows p zo zs st,
    fun io k ts st => import_tiles_cleanup_grows io k ts st,
    fun p g w total items h => run_cleanup_grows p g w total items h,
    fun cl e f h => drain_mem cl e f h,
    fun cl e f h => drain_not_mem cl e f h⟩

/-- Witness for `c9_cleanup_monotone_drain`: the stale fixture run's registry
extends the classification's, the registered fixture path is drained, an
unregistered one is untouched. -/
theorem c9_witness :
    growsTo (classify p_ned w_stale.fs_size [entry_stale]).cleanup_list
      (run p_ned g_plain w_stale 1 [entry_stale]).cleanup_list ∧
    drain ["/w/a.img"] (fun _ => true) "/w/a.img" = false ∧
    drain ["/w/a.img"] (fun _ => true) "/w/other" = (fun _ => true) "/w/other" :=
  ⟨c9_cleanup_monotone_drain.2.2.2.2.1 p_ned g_plain w_stale 1 [entry_stale] (by decide),
    c9_cleanup_monotone_drain.2.2.2.2.2.1 ["/w/a.img"] (fun _ => true) "/w/a.img" (by decide),
    c9_cleanup_monotone_drain.2.2.2.2.2.2 ["/w/a.img"] (fun _ => true) "/w/other" (by decide)⟩

end RInUsgs
